import Mathlib

/-!
Verification development for the todoist-scheduler repository.

Shallow embedding conventions:
* Instants are natural numbers counting minutes; a calendar date is `t / 1440`,
  the time of day is `t % 1440`, the hour is `t % 1440 / 60`.  Day number `d`
  has weekday `d % 7` with Monday = 0 (Python `datetime.weekday` convention),
  i.e. minute 0 falls on a Monday.
* Python sets of datetimes are modelled as duplicate-free `List Nat` with a
  dedup-preserving insert; external data (life-block JSON, OpenRouter replies,
  the `OPENROUTER_KEY` environment variable) are oracle fields of the state.
* `re` patterns are modelled over `List Char`; `\d`/`\w` are taken in their
  ASCII meaning.
-/

namespace TodoistScheduler

/-- Constant from `src/todoist_scheduler/scheduler/constants.py`. -/
def INTERVAL_MINUTES : Nat := 5

/-- `SLEEP_TIME = dt.time(20, 45)` expressed as minutes of the day. -/
def SLEEP_MINUTES : Nat := 20 * 60 + 45

/-- Constant from `constants.py`. -/
def WEEKDAY_START_HOUR : Nat := 15

/-- Constant from `constants.py`. -/
def WEEKEND_START_HOUR : Nat := 9

/-- Constant from `constants.py`. -/
def DEFAULT_DURATION : Nat := 30

/-- Constant from `constants.py`. -/
def MIN_DURATION : Nat := 5

/-! ### The regex `(\d+)m\b` over character lists -/

/-- ASCII word character, as in the regex escape `\w`. -/
def wordChar (c : Char) : Bool := c.isAlphanum || c = '_'

/-- The `\b` condition after the letter `m`: the following character (head of
the remaining input) must not be a word character. -/
def isBoundary : List Char → Bool
  | [] => true
  | c :: _ => !wordChar c

/-- Value of a run of decimal digit characters, as computed by Python `int`. -/
def digitsVal (l : List Char) : Nat := l.foldl (fun a c => 10 * a + (c.toNat - 48)) 0

/-- Leftmost match of the pattern `(\d+)m\b`.  Returns
`some (front, run, tail)` where the scanned text is `front ++ run ++ 'm' :: tail`,
`run` is the (maximal) matched digit run and `tail` is the rest of the input
after the `m`; returns `none` when the pattern does not occur.  A match must be
a maximal digit run, immediately followed by `m`, immediately followed by a
non-word character or the end of the input. -/
def firstMatch : List Char → Option (List Char × List Char × List Char)
  | [] => none
  | c :: rest =>
    if c.isDigit then
      match rest with
      | [] => none
      | r0 :: rtail =>
        if r0 = 'm' then
          if isBoundary rtail then some ([], [c], rtail)
          else (firstMatch rest).map (fun pr => (c :: pr.1, pr.2.1, pr.2.2))
        else if r0.isDigit then
          match firstMatch rest with
          | some ([], r, t) => some ([], c :: r, t)
          | fr => fr.map (fun pr => (c :: pr.1, pr.2.1, pr.2.2))
        else (firstMatch rest).map (fun pr => (c :: pr.1, pr.2.1, pr.2.2))
    else (firstMatch rest).map (fun pr => (c :: pr.1, pr.2.1, pr.2.2))

/-- Successive non-overlapping matches of `(\d+)m\b` (the semantics of
`re.findall`), fuelled by the input length so that the function is structural
and executable. -/
def scanAux : Nat → List Char → List Nat
  | 0, _ => []
  | fuel + 1, l =>
    match firstMatch l with
    | none => []
    | some (_, r, t) => digitsVal r :: scanAux fuel t

/-- All `(\d+)m\b` marker values occurring in a character list, left to right. -/
def scanMarkers (l : List Char) : List Nat := scanAux l.length l

/-- Rounding to the nearest multiple of `INTERVAL_MINUTES` (= 5).  For an odd
interval a tie `x.5` is impossible for integer minutes, so Python's banker
`round(minutes / INTERVAL_MINUTES)` agrees with round-half-up. -/
def roundToInterval (m : Nat) : Nat :=
  (2 * m + INTERVAL_MINUTES) / (2 * INTERVAL_MINUTES) * INTERVAL_MINUTES

/-- `TaskDurationEstimator.parse_duration_from_description`
(`src/todoist_scheduler/scheduler/duration.py` lines 68-79): the value of the
last `(\d+)m\b` marker, rounded to the interval and clamped to `MIN_DURATION`;
`none` for an empty description or when no marker occurs. -/
def parse_duration_from_description (description : String) : Option Nat :=
  if description = "" then none
  else
    match (scanMarkers description.data).getLast? with
    | none => none
    | some m => some (max MIN_DURATION (roundToInterval m))

/-- Fuelled decimal printer (`n + 1` units of fuel always suffice). -/
def natCharsAux : Nat → Nat → List Char
  | 0, _ => []
  | fuel + 1, n =>
    if n < 10 then [Char.ofNat (48 + n)]
    else natCharsAux fuel (n / 10) ++ [Char.ofNat (48 + n % 10)]

/-- Decimal digit characters of a natural number, as produced by `f"{n}"`. -/
def natChars (n : Nat) : List Char := natCharsAux (n + 1) n

/-- The replacement text `f"{duration}m"` used by `re.sub`. -/
def repMarker (n : Nat) : List Char := natChars n ++ ['m']

/-- `re.sub(pattern, rep, l, count=1)`: replace the leftmost match (if any). -/
def subFirst (rep : List Char) (l : List Char) : List Char :=
  match firstMatch l with
  | none => l
  | some (front, _, tail) => front ++ rep ++ tail

/-- Whether `re.search` finds a `(\d+)m\b` marker. -/
def hasMarker (l : List Char) : Bool := (firstMatch l).isSome

/-- The six ASCII whitespace characters stripped by Python `str.strip()`. -/
def isSpaceChar (c : Char) : Bool :=
  c = ' ' || c = '\t' || c = '\n' || c = '\r' || c = '\x0b' || c = '\x0c'

/-- Python `str.strip()`. -/
def pyStrip (l : List Char) : List Char :=
  ((l.dropWhile isSpaceChar).reverse.dropWhile isSpaceChar).reverse

/-- `TaskDurationEstimator.add_duration_to_description` (`duration.py`
lines 81-88): empty description becomes `f"{duration}m"`; with an existing
marker the first occurrence is replaced in place; otherwise
`f"{description} {duration}m".strip()`. -/
def add_duration_to_description (description : String) (duration : Nat) : String :=
  if description = "" then String.mk (repMarker duration)
  else if hasMarker description.data then
    String.mk (subFirst (repMarker duration) description.data)
  else
    String.mk (pyStrip (description.data ++ ' ' :: repMarker duration))

/-! ### Keyword heuristic and OpenRouter collaborators -/

/-- Keyword bucket from `duration.py`. -/
def QUICK_KEYWORDS : List String :=
  ["check", "quick", "brief", "short", "email", "text", "call", "review",
   "confirm", "verify", "remind", "note", "list"]

/-- Keyword bucket from `duration.py`. -/
def MEDIUM_KEYWORDS : List String :=
  ["read", "watch", "install", "setup", "configure", "update", "change",
   "cancel", "make", "create", "write"]

/-- Keyword bucket from `duration.py`. -/
def LONG_KEYWORDS : List String :=
  ["build", "develop", "implement", "research", "study", "learn", "clean",
   "organize", "project", "essay"]

/-- Whether the first list is a prefix of the second. -/
def startsWithChars : List Char → List Char → Bool
  | [], _ => true
  | _ :: _, [] => false
  | a :: as, b :: bs => a = b && startsWithChars as bs

/-- Whether `needle` occurs contiguously inside the second list. -/
def subOf (needle : List Char) : List Char → Bool
  | [] => needle.isEmpty
  | c :: rest => startsWithChars needle (c :: rest) || subOf needle rest

/-- Python `kw in text` substring test on lowered text. -/
def containsSub (text : List Char) (kw : String) : Bool := subOf kw.data text

/-- The text scanned by the heuristic: `(content + " " + description).lower()`. -/
def heuristicText (content description : String) : List Char :=
  ((content ++ " " ++ description).data).map Char.toLower

/-- `TaskDurationEstimator.estimate_heuristic` (`duration.py` lines 90-99). -/
def estimate_heuristic (content description : String) : Nat :=
  if QUICK_KEYWORDS.any (containsSub (heuristicText content description)) then 10
  else if MEDIUM_KEYWORDS.any (containsSub (heuristicText content description)) then 25
  else if LONG_KEYWORDS.any (containsSub (heuristicText content description)) then 45
  else DEFAULT_DURATION

/-- First `\d+` match in a reply (`re.findall(r"\d+", text)` then `[0]`). -/
def firstNumber : List Char → Option Nat
  | [] => none
  | c :: rest =>
    if c.isDigit then some (digitsVal (c :: rest.takeWhile Char.isDigit))
    else firstNumber rest

/-- `estimate_minutes` from `src/integrations/openrouter.py` (lines 10-64),
modelled at the point after network I/O: `apiKey` is the `OPENROUTER_KEY`
environment value and `reply` is the message content of a successful HTTP
round trip (`none` when the key is missing, or for a network error / bad
status / malformed JSON / timeout, all of which the source turns into `None`
via `except Exception`).  A reply with no digits yields `none`; otherwise the
first number is rounded to the interval and clamped to the minimum, the caller
passing `INTERVAL_MINUTES` and `MIN_DURATION`. -/
def estimate_minutes (apiKey : Option String) (reply : Option String) : Option Nat :=
  match apiKey with
  | none => none
  | some _ =>
    match reply with
    | none => none
    | some content =>
      match firstNumber content.data with
      | none => none
      | some m => some (max MIN_DURATION (roundToInterval m))

/-- `estimate_priority` from `openrouter.py` (lines 67-121), modelled the same
way: first number of the reply, accepted only when it is 2 or 4. -/
def estimate_priority (apiKey : Option String) (reply : Option String) : Option Nat :=
  match apiKey with
  | none => none
  | some _ =>
    match reply with
    | none => none
    | some content =>
      match firstNumber content.data with
      | none => none
      | some v => if v = 2 || v = 4 then some v else none

/-- `TaskDurationEstimator.estimate` (`duration.py` lines 110-120):
marker → AI → heuristic.  `aiReply` stands for the OpenRouter reply the call
`estimate_with_ai(content, description)` would receive. -/
def estimate (apiKey : Option String) (aiReply : Option String)
    (content description : String) : Nat × Bool :=
  match parse_duration_from_description description with
  | some u => (u, true)
  | none =>
    match estimate_minutes apiKey aiReply with
    | some a => (a, false)
    | none => (estimate_heuristic content description, false)

/-! ### Data model -/

/-- A task's `due` value: calendar day, optional time of day (minutes; `none`
models `task.due.datetime is None`, a date-only task), the recurrence flag and
the recurrence text. -/
structure Due where
  day : Nat
  time : Option Nat
  isRecurring : Bool
  dueString : String
deriving DecidableEq, Repr

/-- A Todoist task as read by the scheduler.  `completed` merges the
`is_completed` / `completed_at` checks of `is_task_completed`. -/
structure Task where
  id : Nat
  content : String
  description : String
  due : Option Due
  priority : Nat
  completed : Bool
  labels : List String
deriving DecidableEq, Repr

/-- `TaskScheduler.to_datetime(task.due.date)`: a date-only due value is
interpreted at midnight (`dt.datetime.combine(d, dt.time())`). -/
def dueDatetime (d : Due) : Nat := d.day * 1440 + d.time.getD 0

/-- Dedup-preserving insert, modelling `set.add`. -/
def insertSet (x : Nat) (l : List Nat) : List Nat := if x ∈ l then l else x :: l

/-- The `TaskScheduler` state together with its external oracles: `lifeBlocks`
models `blocked_slots_for_date(date, INTERVAL_MINUTES)` (the life-block JSON
expanded to slots; the `life_block_cache` memoisation of
`get_life_blocks_for_date` is semantically transparent), `apiKey` the
`OPENROUTER_KEY` environment value, and `durReply`/`prioReply` the OpenRouter
message contents (keyed by content and description) that `estimate_minutes` /
`estimate_priority` would receive, `none` standing for any failed call. -/
structure SchedState where
  tasks : List Task
  today : Nat
  blocked : List Nat
  recurring : List Nat
  lifeBlocks : Nat → List Nat
  apiKey : Option String
  durReply : String → String → Option String
  prioReply : String → String → Option String

/-- `TaskScheduler.is_task_completed`. -/
def is_task_completed (t : Task) : Bool := t.completed

/-- `TaskScheduler.should_skip_reschedule`: the `#dontchangetime` label. -/
def should_skip_reschedule (t : Task) : Bool := t.labels.contains "#dontchangetime"

/-- `TaskScheduler.is_date_only_task`: a due value whose `datetime` is absent. -/
def is_date_only_task (t : Task) : Bool :=
  match t.due with
  | none => false
  | some d => d.time.isNone

/-- Day-type start hour for the day of instant `t`
(`WEEKEND_START_HOUR if when.weekday() >= 5 else WEEKDAY_START_HOUR`). -/
def startHourOf (t : Nat) : Nat :=
  if 5 ≤ t / 1440 % 7 then WEEKEND_START_HOUR else WEEKDAY_START_HOUR

/-- `TaskScheduler.is_time_blocked` (scheduler.py lines 89-99): blocked slots,
life blocks of the instant's date, or the sleep/start-hour envelope. -/
def is_time_blocked (st : SchedState) (t : Nat) : Bool :=
  t ∈ st.blocked || t ∈ st.lifeBlocks (t / 1440)
    || SLEEP_MINUTES ≤ t % 1440 || t % 1440 / 60 < startHourOf t

/-- `TaskScheduler.build_blocked_times` (lines 101-106): reset both slot sets
and merge today's life blocks.  The task-expansion loop of the source sits
after the `return slots` statement of `get_life_blocks_for_date`
(lines 116-144) and is unreachable, so it does not appear here. -/
def build_blocked_times (st : SchedState) : SchedState :=
  { st with blocked := (st.lifeBlocks st.today).foldl (fun b x => insertSet x b) [],
            recurring := [] }

/-- `TaskScheduler.is_slot_available` (lines 161-166). -/
def is_slot_available (st : SchedState) (start numBlocks : Nat) : Bool :=
  (List.range numBlocks).all fun j =>
    !(is_time_blocked st (start + INTERVAL_MINUTES * j)
      || (start + INTERVAL_MINUTES * j) ∈ st.recurring)

/-- Fuelled loop of `find_available_slot`; the source runs the body exactly
`range(10000)` times before raising. -/
def findSlotAux (st : SchedState) (numBlocks : Nat) : Nat → Nat → Except String Nat
  | 0, _ => .error "Could not find available time slot"
  | fuel + 1, time =>
    if is_slot_available st time numBlocks then .ok time
    else findSlotAux st numBlocks fuel (time + INTERVAL_MINUTES)

/-- `TaskScheduler.find_available_slot` (lines 168-176); the `RuntimeError` is
the `Except.error` case. -/
def find_available_slot (st : SchedState) (startTime numBlocks : Nat) : Except String Nat :=
  findSlotAux st numBlocks 10000 startTime

/-- Fuelled loop of `find_available_slot_for_date`. -/
def findSlotDateAux (st : SchedState) (numBlocks targetDate : Nat) :
    Nat → Nat → Option Nat
  | 0, _ => none
  | fuel + 1, time =>
    if time / 1440 ≠ targetDate then none
    else if is_slot_available st time numBlocks then some time
    else findSlotDateAux st numBlocks targetDate fuel (time + INTERVAL_MINUTES)

/-- `TaskScheduler.find_available_slot_for_date` (lines 178-188). -/
def find_available_slot_for_date (st : SchedState) (startTime numBlocks targetDate : Nat) :
    Option Nat :=
  findSlotDateAux st numBlocks targetDate 10000 startTime

/-- `TaskScheduler.block_time_slots` (lines 190-193). -/
def block_time_slots (st : SchedState) (startTime numBlocks : Nat) : SchedState :=
  { st with blocked := ((List.range numBlocks).foldl
      (fun b j => insertSet (startTime + INTERVAL_MINUTES * j) b) st.blocked) }

/-- `num_blocks = max(1, ceil(duration / INTERVAL_MINUTES))` as computed by
`(duration + INTERVAL_MINUTES - 1) // INTERVAL_MINUTES`. -/
def numBlocksOf (duration : Nat) : Nat :=
  max 1 ((duration + INTERVAL_MINUTES - 1) / INTERVAL_MINUTES)

/-- `TaskScheduler.is_current_slot_valid` (lines 195-215): envelope and
recurring-collision check over the task's block range; note that ordinary
blocked slots and life blocks are not consulted. -/
def is_current_slot_valid (st : SchedState) (t : Task) (duration : Nat) : Bool :=
  match t.due with
  | none => false
  | some due =>
    let taskDue := dueDatetime due
    if taskDue / 1440 < st.today then false
    else
      (List.range (numBlocksOf duration)).all fun j =>
        let ct := taskDue + INTERVAL_MINUTES * j
        !(SLEEP_MINUTES ≤ ct % 1440 || ct % 1440 / 60 < startHourOf ct)
          && !(ct ∈ st.recurring)

/-- Per-task predicate of the `get_bad_tasks` loop (lines 217-245); the local
`task_due = to_datetime(task.due.date)` of the source is inlined. -/
def isBadTask (st : SchedState) (t : Task) : Bool :=
  if is_task_completed t then false
  else if should_skip_reschedule t then false
  else
    match t.due with
    | none => true
    | some due =>
      if due.isRecurring then false
      else if dueDatetime due / 1440 < st.today then true
      else if dueDatetime due / 1440 = st.today then
        match parse_duration_from_description t.description with
        | none => false
        | some userDuration => !is_current_slot_valid st t userDuration
      else false

/-- `TaskScheduler.get_bad_tasks` (lines 217-245). -/
def get_bad_tasks (st : SchedState) : List Task := st.tasks.filter (isBadTask st)

/-! ### Gap finder -/

/-- Ascending insertion into a sorted list. -/
def insertSorted (x : Nat) : List Nat → List Nat
  | [] => [x]
  | y :: ys => if x ≤ y then x :: y :: ys else y :: insertSorted x ys

/-- Ascending sort, modelling Python `sorted` on a (duplicate-free) set. -/
def sortNat (l : List Nat) : List Nat := l.foldr insertSorted []

/-- The `while current_end + INTERVAL_MINUTES in self.blocked_slots` walk of
`find_gaps_in_schedule`, fuelled by the size of the blocked set: each
successful step moves to a strictly larger member of `blocked`, so
`blocked.length` steps always suffice for a duplicate-free list. -/
def extendRun (blocked : List Nat) : Nat → Nat → Nat
  | 0, t => t
  | fuel + 1, t =>
    if (t + INTERVAL_MINUTES) ∈ blocked then extendRun blocked fuel (t + INTERVAL_MINUTES)
    else t

/-- The middle loop of `find_gaps_in_schedule` over consecutive sorted
occupied slots: coalesce the run starting at the earlier slot and report a gap
only when the break to the next slot exceeds one interval. -/
def midGaps (blocked : List Nat) : List Nat → List (Nat × Nat)
  | a :: b :: rest =>
    (if extendRun blocked blocked.length a + INTERVAL_MINUTES < b
     then [(extendRun blocked blocked.length a + INTERVAL_MINUTES, b)] else [])
      ++ midGaps blocked (b :: rest)
  | _ => []

/-- Body of `find_gaps_in_schedule` on the sorted list of today's occupied
slots at or after the start instant: leading gap, coalesced middle gaps,
trailing gap after the last coalesced run. -/
def gapsFromSorted (blocked : List Nat) (startTime endOfDay : Nat) :
    List Nat → List (Nat × Nat)
  | [] => [(startTime, endOfDay)]
  | first :: rest =>
    (if startTime < first then [(startTime, first)] else [])
      ++ midGaps blocked (first :: rest)
      ++ (if extendRun blocked blocked.length ((first :: rest).getLastD 0)
            + INTERVAL_MINUTES < endOfDay
          then [(extendRun blocked blocked.length ((first :: rest).getLastD 0)
            + INTERVAL_MINUTES, endOfDay)] else [])

/-- `TaskScheduler.find_gaps_in_schedule` (lines 247-293). -/
def find_gaps_in_schedule (st : SchedState) (startTime : Nat) : List (Nat × Nat) :=
  gapsFromSorted st.blocked startTime (st.today * 1440 + SLEEP_MINUTES)
    (sortNat (st.blocked.filter fun t => t / 1440 = st.today && startTime ≤ t))

/-- `TaskScheduler.find_gap_for_task` (lines 295-314): first gap that is long
enough and whose `num_blocks` leading slots each avoid the recurring set and
`is_time_blocked`; the gap duration is computed as a (possibly negative)
number of minutes. -/
def find_gap_for_task (st : SchedState) (gaps : List (Nat × Nat)) (numBlocks : Nat) :
    Option Nat :=
  match gaps with
  | [] => none
  | (gapStart, gapEnd) :: rest =>
    if (gapEnd : Int) - (gapStart : Int) < (numBlocks * INTERVAL_MINUTES : Nat) then
      find_gap_for_task st rest numBlocks
    else if (List.range numBlocks).all (fun j =>
        !((gapStart + INTERVAL_MINUTES * j) ∈ st.recurring
          || is_time_blocked st (gapStart + INTERVAL_MINUTES * j))) then
      some gapStart
    else find_gap_for_task st rest numBlocks

/-- Qualification predicate for one gap, stated as in the specification: the
gap is long enough for `numBlocks` blocks and each of the `numBlocks`
candidate instants from the gap start independently avoids the recurring set
and passes the legality check. -/
def gapOk (st : SchedState) (numBlocks : Nat) (g : Nat × Nat) : Bool :=
  decide (((numBlocks * INTERVAL_MINUTES : Nat) : Int) ≤ (g.2 : Int) - (g.1 : Int))
    && (List.range numBlocks).all fun j =>
      !((g.1 + INTERVAL_MINUTES * j) ∈ st.recurring
        || is_time_blocked st (g.1 + INTERVAL_MINUTES * j))

/-! ### Scheduling pass -/

/-- Stable insertion for descending-priority order. -/
def insertDesc (x : Task) : List Task → List Task
  | [] => [x]
  | y :: ys => if y.priority < x.priority then x :: y :: ys else y :: insertDesc x ys

/-- `bad_tasks.sort(key=priority, reverse=True)`: stable descending sort. -/
def sortDesc (l : List Task) : List Task := l.foldr insertDesc []

/-- The search-start bound of `schedule_non_recurring_tasks` (lines 320-334):
round up to the next interval boundary, at least an hour out.  `now` is in
minutes (seconds and microseconds, which the source zeroes, do not appear). -/
def ceilSlot (m : Nat) : Nat :=
  m / 60 * 60 + INTERVAL_MINUTES * ((m % 60 + INTERVAL_MINUTES - 1) / INTERVAL_MINUTES)

/-- `now_rounded` of `schedule_non_recurring_tasks`. -/
def nowRounded (now : Nat) : Nat := max (ceilSlot (now + 60)) (ceilSlot now)

/-- One iteration of the `for task in bad_tasks` loop (lines 338-377):
estimate the duration, find a slot (gap first, then the linear fallback;
date-only tasks whose date is not today are skipped, as are date-only tasks
with no same-date slot), unblock the task's previous due instant, block the
new range.  Returns the new state and the placement `(id, slot, numBlocks)`
written back to the store, if any; a `RuntimeError` of `find_available_slot`
aborts the whole pass. -/
def placeTask (gaps : List (Nat × Nat)) (nowR : Nat) (st : SchedState) (t : Task) :
    Except String (SchedState × Option (Nat × Nat × Nat)) :=
  let duration := (estimate st.apiKey (st.durReply t.content t.description)
    t.content t.description).1
  let nb := numBlocksOf duration
  let finish : Nat → SchedState × Option (Nat × Nat × Nat) := fun slot =>
    let st1 :=
      match t.due with
      | some due =>
        { st with blocked := if dueDatetime due ∈ st.blocked
                             then st.blocked.erase (dueDatetime due) else st.blocked }
      | none => st
    (block_time_slots st1 slot nb, some (t.id, slot, nb))
  if is_date_only_task t then
    match t.due with
    | none => .ok (st, none)
    | some due =>
      if due.day ≠ st.today then .ok (st, none)
      else
        match find_gap_for_task st gaps nb with
        | some slot => .ok (finish slot)
        | none =>
          match find_available_slot_for_date st nowR nb due.day with
          | some slot => .ok (finish slot)
          | none => .ok (st, none)
  else
    match find_gap_for_task st gaps nb with
    | some slot => .ok (finish slot)
    | none =>
      match find_available_slot st nowR nb with
      | .ok slot => .ok (finish slot)
      | .error e => .error e

/-- The placement loop over the sorted candidates. -/
def placeAll (gaps : List (Nat × Nat)) (nowR : Nat) :
    SchedState → List Task → Except String (SchedState × List (Nat × Nat × Nat))
  | st, [] => .ok (st, [])
  | st, t :: rest => do
    let (st1, placed) ← placeTask gaps nowR st t
    let (st2, placements) ← placeAll gaps nowR st1 rest
    .ok (st2, (placed.toList) ++ placements)

/-- `TaskScheduler.schedule_non_recurring_tasks` (lines 316-377).  The gap
list is computed once, before the loop, and never updated. -/
def schedule_non_recurring_tasks (st : SchedState) (now : Nat) :
    Except String (SchedState × List (Nat × Nat × Nat)) :=
  let badTasks := sortDesc (get_bad_tasks st)
  let nowR := nowRounded now
  let gaps := find_gaps_in_schedule st nowR
  placeAll gaps nowR st badTasks

/-! ### Auto-priorities and the run sequence -/

/-- The priority `estimate_priority` would write for one task, if any
(`apply_auto_priorities`, lines 45-59): only tasks whose current priority is 1
are considered. -/
def priorityUpdateFor (st : SchedState) (t : Task) : Option Nat :=
  if t.priority = 1 then estimate_priority st.apiKey (st.prioReply t.content t.description)
  else none

/-- `TaskScheduler.apply_auto_priorities` (lines 45-59): the updated local
task list and, in task order, the `(id, priority)` writes sent to the store. -/
def apply_auto_priorities (st : SchedState) : SchedState × List (Nat × Nat) :=
  ({ st with tasks := st.tasks.map fun t =>
      match priorityUpdateFor st t with
      | some p => { t with priority := p }
      | none => t },
   st.tasks.filterMap fun t => (priorityUpdateFor st t).map fun p => (t.id, p))

/-- `TaskScheduler.reschedule_overdue_recurring` (lines 146-159): ids of the
non-completed recurring tasks whose due date is strictly before today, each of
which is re-submitted with its own recurrence string. -/
def reschedule_overdue_recurring (st : SchedState) : List Nat :=
  (st.tasks.filter fun t =>
    !is_task_completed t &&
      match t.due with
      | some due => due.isRecurring && decide (dueDatetime due / 1440 < st.today)
      | none => false).map (·.id)

/-- Externally visible steps of `TaskScheduler.run` (lines 379-390), in
execution order. -/
inductive RunEvent where
  | fetch
  | priorityUpdate (id p : Nat)
  | buildAvailability
  | rescheduleRecurring (id : Nat)
  | place (id slot numBlocks : Nat)
deriving DecidableEq, Repr

/-- Trace of `TaskScheduler.run` (lines 379-390): fetch, auto-priorities,
build, overdue-recurring reschedules, a refetch-and-rebuild when any recurring
task moved (`refetched` is the task list the second `fetch_tasks` would
return), then the placement writes of `schedule_non_recurring_tasks` (empty
when the pass raises). -/
def run_trace (st : SchedState) (refetched : List Task) (now : Nat) : List RunEvent :=
  let stP := (apply_auto_priorities st).1
  let ups := (apply_auto_priorities st).2
  let st1 := build_blocked_times stP
  let resch := reschedule_overdue_recurring st1
  let st2 := if resch.isEmpty then st1 else build_blocked_times { st1 with tasks := refetched }
  let placeEvents :=
    match schedule_non_recurring_tasks st2 now with
    | .ok (_, placements) => placements.map fun p => RunEvent.place p.1 p.2.1 p.2.2
    | .error _ => []
  RunEvent.fetch :: (ups.map fun u => RunEvent.priorityUpdate u.1 u.2)
    ++ RunEvent.buildAvailability :: (resch.map RunEvent.rescheduleRecurring)
    ++ (if resch.isEmpty then [] else [RunEvent.fetch, RunEvent.buildAvailability])
    ++ placeEvents

/-- Tail of the run trace after the first `buildAvailability` event. -/
def run_trace_post (st : SchedState) (refetched : List Task) (now : Nat) : List RunEvent :=
  let st1 := build_blocked_times (apply_auto_priorities st).1
  let resch := reschedule_overdue_recurring st1
  let st2 := if resch.isEmpty then st1 else build_blocked_times { st1 with tasks := refetched }
  let placeEvents :=
    match schedule_non_recurring_tasks st2 now with
    | .ok (_, placements) => placements.map fun p => RunEvent.place p.1 p.2.1 p.2.2
    | .error _ => []
  (resch.map RunEvent.rescheduleRecurring)
    ++ (if resch.isEmpty then [] else [RunEvent.fetch, RunEvent.buildAvailability])
    ++ placeEvents

/-! ### Concrete states used in witnesses and counterexamples -/

/-- The slots a placement of `numBlocks` blocks starting at `s` occupies. -/
def slotRange (s numBlocks : Nat) : List Nat :=
  (List.range numBlocks).map fun j => s + INTERVAL_MINUTES * j

/-- An oracle-free scheduler state: no tasks, empty slot sets, no life blocks,
no OpenRouter key; `today` is day 0, a Monday. -/
def emptyState : SchedState :=
  { tasks := [], today := 0, blocked := [], recurring := [],
    lifeBlocks := fun _ => [], apiKey := none,
    durReply := fun _ _ => none, prioReply := fun _ _ => none }

/-- A task due today (Monday, day 0) at 16:00 with an explicit `10m` marker. -/
def c1Task : Task :=
  { id := 7, content := "pay the bill", description := "10m",
    due := some { day := 0, time := some 960, isRecurring := false, dueString := "" },
    priority := 1, completed := false, labels := [] }

/-- A fetched state holding `c1Task`, with stale pre-build slot sets. -/
def c1State : SchedState :=
  { emptyState with tasks := [c1Task], blocked := [123], recurring := [456] }

/-- Occupied slots 09:00, 09:05, 09:10 of day 0 — the spec's gap example. -/
def c2State : SchedState := { emptyState with blocked := [540, 545, 550] }

/-- A state whose recurring set splits the afternoon at 16:25. -/
def c3State : SchedState := { emptyState with recurring := [985] }

/-- Priority-4 candidate with no due value; heuristic duration 10m. -/
def c5TaskA : Task :=
  { id := 1, content := "check", description := "", due := none,
    priority := 4, completed := false, labels := [] }

/-- Priority-3 candidate due today at 16:00 whose `290m` marker makes its
block range cross the 20:45 sleep boundary, so its current slot is invalid. -/
def c5TaskB : Task :=
  { id := 2, content := "zzz", description := "290m",
    due := some { day := 0, time := some 960, isRecurring := false, dueString := "" },
    priority := 3, completed := false, labels := [] }

/-- Priority-2 candidate with no due value and an explicit `5m` marker. -/
def c5TaskC : Task :=
  { id := 3, content := "zzz", description := "5m", due := none,
    priority := 2, completed := false, labels := [] }

/-- Post-build state of a pass over the three candidates (empty availability,
as `build_blocked_times` produces with no life blocks). -/
def c5State : SchedState := { emptyState with tasks := [c5TaskA, c5TaskB, c5TaskC] }

/-- State for the exhausted-search witness. -/
def c6State : SchedState := emptyState

/-- A non-recurring task due today at 14:00 with no duration marker — the
claim's "running over its estimate" example. -/
def c4Task : Task :=
  { id := 5, content := "zzz", description := "no marker here",
    due := some { day := 0, time := some 840, isRecurring := false, dueString := "" },
    priority := 1, completed := false, labels := [] }

/-- A state fetching only `c4Task`. -/
def c4State : SchedState := { emptyState with tasks := [c4Task] }

/-- A priority-1 task whose OpenRouter priority reply is `4`. -/
def c10Task : Task :=
  { id := 9, content := "file taxes", description := "", due := none,
    priority := 1, completed := false, labels := [] }

/-- A state with a configured key and a priority reply of `"4"`. -/
def c10State : SchedState :=
  { emptyState with tasks := [c10Task], apiKey := some "k",
                    prioReply := fun _ _ => some "4" }

/-! ### Theorems -/

/-- C1: the spec's availability build step is required to expand every fetched,
non-completed, non-exempt task due today into consecutive slots from its due
instant and add them to the occupied set.  In the source, that expansion loop
sits after the `return slots` statement of `get_life_blocks_for_date` and never
executes, so after `build_blocked_times` the occupied set holds only today's
life-block slots: for `c1State` (one task due today 16:00 with a `10m` marker,
no life blocks) the occupied set comes out empty and in particular does not
contain the task's due slot 960. -/
theorem c1_build_omits_task_slots :
    (build_blocked_times c1State).blocked = []
      ∧ 960 ∉ (build_blocked_times c1State).blocked
      ∧ (build_blocked_times c1State).recurring = [] := by decide

/-- C7: a description `"37m"` parses to 35 (rounded to the 5-minute interval)
and `estimate` returns `(35, true)` whatever the AI oracle does; further
markers demonstrate last-occurrence selection (`"10m 37m"` vs `"37m 10m"`),
the `MIN_DURATION` clamp (`"3m"`), and rounding up (`"38m"`). -/
theorem c7_marker_parsing :
    (∀ (apiKey aiReply : Option String) (content : String),
        estimate apiKey aiReply content "37m" = (35, true))
      ∧ parse_duration_from_description "37m" = some 35
      ∧ parse_duration_from_description "137m" = some 135
      ∧ parse_duration_from_description "10m 37m" = some 35
      ∧ parse_duration_from_description "37m 10m" = some 10
      ∧ parse_duration_from_description "3m" = some 5
      ∧ parse_duration_from_description "38m" = some 40 := by
  refine ⟨fun k r c => rfl, by decide, by decide, by decide, by decide, by decide, by decide⟩

/-- C8: the estimation cascade is total and never escapes: `estimate_minutes`
yields `none` without a credential or without a reply, and whenever the marker
tier and the AI tier both yield `none` the cascade lands on the keyword
heuristic, whose value is always one of the buckets 10, 25, 45 or the default
30 — so `estimate` always returns some duration. -/
theorem c8_cascade_total :
    ∀ (apiKey aiReply : Option String) (content description : String),
      (estimate_heuristic content description = 10
          ∨ estimate_heuristic content description = 25
          ∨ estimate_heuristic content description = 45
          ∨ estimate_heuristic content description = 30)
        ∧ estimate_minutes none aiReply = none
        ∧ estimate_minutes apiKey none = none
        ∧ (parse_duration_from_description description = none →
            estimate_minutes apiKey aiReply = none →
            estimate apiKey aiReply content description
              = (estimate_heuristic content description, false)) := by
  intro k r c d
  refine ⟨?_, rfl, ?_, ?_⟩
  · unfold estimate_heuristic
    split_ifs <;> simp [DEFAULT_DURATION]
  · cases k <;> rfl
  · intro h1 h2
    simp [estimate, h1, h2]

/-- Witness for C8 at a keyword-free title with empty description and a failed
AI tier. -/
theorem c8_cascade_total_witness :
    estimate none none "fix the fence" "" = (estimate_heuristic "fix the fence" "", false) :=
  (c8_cascade_total none none "fix the fence" "").2.2.2 (by decide) (by decide)

/-- The loop body of `find_available_slot` runs out of fuel with an error when
no slot in range is available. -/
theorem findSlotAux_exhaust (st : SchedState) (nb : Nat) :
    ∀ (fuel t : Nat),
      (∀ i, i < fuel → is_slot_available st (t + INTERVAL_MINUTES * i) nb = false) →
      findSlotAux st nb fuel t = .error "Could not find available time slot"
  | 0, _, _ => rfl
  | fuel + 1, t, h => by
    rw [findSlotAux]
    have h0 := h 0 (by omega)
    rw [Nat.mul_zero, Nat.add_zero] at h0
    rw [h0]
    simp only [Bool.false_eq_true, if_false]
    exact findSlotAux_exhaust st nb fuel (t + INTERVAL_MINUTES) (fun i hi => by
      have hstep := h (i + 1) (by omega)
      have harith : t + INTERVAL_MINUTES * (i + 1)
          = t + INTERVAL_MINUTES + INTERVAL_MINUTES * i := by ring
      rwa [harith] at hstep)

/-- On `c6State` no slot can host 142 consecutive blocks: 142 blocks span 705
minutes, while even the weekend envelope `[09:00, 20:45)` is only 705 minutes
long, so some block always reaches the sleep boundary or starts before the
day-type start hour. -/
theorem c6_no_slot (t : Nat) : is_slot_available c6State t 142 = false := by
  rw [is_slot_available, Bool.eq_false_iff]
  intro hall
  rw [List.all_eq_true] at hall
  have hblocked : ∀ j, j < 142 → is_time_blocked c6State (t + INTERVAL_MINUTES * j) = false := by
    intro j hj
    have := hall j (List.mem_range.mpr hj)
    simp only [Bool.not_eq_true', Bool.or_eq_false_iff] at this
    exact this.1
  have h0 := hblocked 0 (by omega)
  rw [Nat.mul_zero, Nat.add_zero] at h0
  simp only [is_time_blocked, c6State, emptyState, SLEEP_MINUTES,
    List.not_mem_nil, decide_False, Bool.false_or, Bool.or_eq_false_iff,
    decide_eq_false_iff_not, Nat.not_le, Nat.not_lt] at h0
  obtain ⟨hsleep, hstart⟩ := h0
  have hstart9 : 9 ≤ t % 1440 / 60 := by
    refine le_trans ?_ hstart
    unfold startHourOf WEEKEND_START_HOUR WEEKDAY_START_HOUR
    split <;> omega
  have hm : 540 ≤ t % 1440 := by omega
  have hmlt : t % 1440 < 1245 := by omega
  set j := (1245 - t % 1440 + 4) / 5 with hjdef
  have hj142 : j < 142 := by omega
  have hcontr := hblocked j hj142
  have hmod : (t + INTERVAL_MINUTES * j) % 1440 = t % 1440 + 5 * j := by
    simp only [INTERVAL_MINUTES]
    omega
  simp only [is_time_blocked, c6State, emptyState, SLEEP_MINUTES,
    List.not_mem_nil, decide_False, Bool.false_or, Bool.or_eq_false_iff,
    decide_eq_false_iff_not, Nat.not_le, Nat.not_lt] at hcontr
  rw [hmod] at hcontr
  omega

/-- C6: whenever the forward linear scan of the fallback path finds no legal,
recurring-free slot in any of its 10000 iterations, `find_available_slot`
surfaces the condition as the explicit `RuntimeError` (the `Except.error`
value) instead of returning silently. -/
theorem c6_exhausted_search_errors :
    ∀ (st : SchedState) (startTime numBlocks : Nat),
      (∀ i, i < 10000 →
        is_slot_available st (startTime + INTERVAL_MINUTES * i) numBlocks = false) →
      find_available_slot st startTime numBlocks
        = .error "Could not find available time slot" :=
  fun st startTime numBlocks h => findSlotAux_exhaust st numBlocks 10000 startTime h

/-- Witness for C6: 142 blocks (710 minutes) never fit a day envelope, so the
scan from minute 0 exhausts its ceiling and errors. -/
theorem c6_exhausted_search_errors_witness :
    find_available_slot c6State 0 142 = .error "Could not find available time slot" :=
  c6_exhausted_search_errors c6State 0 142 (fun i _ => c6_no_slot (0 + INTERVAL_MINUTES * i))

/-- Membership through sorted insertion. -/
theorem mem_insertSorted {x a : Nat} {l : List Nat} :
    x ∈ insertSorted a l ↔ x = a ∨ x ∈ l := by
  induction l with
  | nil => simp [insertSorted]
  | cons y ys ih =>
    rw [insertSorted]
    split
    · simp
    · simp only [List.mem_cons, ih]
      tauto

/-- Sorting preserves membership. -/
theorem mem_sortNat {x : Nat} {l : List Nat} : x ∈ sortNat l ↔ x ∈ l := by
  induction l with
  | nil => simp [sortNat]
  | cons y ys ih =>
    show x ∈ insertSorted y (sortNat ys) ↔ _
    rw [mem_insertSorted, ih]
    simp

/-- The coalescing walk stays inside the blocked set. -/
theorem extendRun_mem {blocked : List Nat} :
    ∀ (fuel t : Nat), t ∈ blocked → extendRun blocked fuel t ∈ blocked
  | 0, _, h => h
  | fuel + 1, t, h => by
    rw [extendRun]
    split
    · exact extendRun_mem fuel _ (by assumption)
    · exact h

/-- A middle gap starts one interval after a member of the blocked set. -/
theorem midGaps_start {blocked : List Nat} :
    ∀ (l : List Nat) (gs ge : Nat), (gs, ge) ∈ midGaps blocked l →
      (∀ x ∈ l, x ∈ blocked) →
      ∃ e ∈ blocked, gs = e + INTERVAL_MINUTES := by
  intro l
  induction l with
  | nil => simp [midGaps]
  | cons a rest ih =>
    cases rest with
    | nil => simp [midGaps]
    | cons b rest2 =>
      intro gs ge hmem hsub
      rw [midGaps] at hmem
      rcases List.mem_append.mp hmem with h1 | h2
      · refine ⟨extendRun blocked blocked.length a, ?_, ?_⟩
        · exact extendRun_mem blocked.length a (hsub a (by simp))
        · split at h1 <;> simp_all
      · exact ih gs ge h2 (fun x hx => hsub x (List.mem_cons_of_mem a hx))

/-- The last element of a nonempty list is a member. -/
theorem getLastD_mem_of_ne_nil :
    ∀ (l : List Nat) (d : Nat), l ≠ [] → l.getLastD d ∈ l
  | [], _, h => absurd rfl h
  | x :: xs, d, _ => by
    cases hxs : xs with
    | nil => simp [List.getLastD]
    | cons y ys =>
      have hmem := getLastD_mem_of_ne_nil (y :: ys) x (by simp)
      rw [List.getLastD_cons]
      exact List.mem_cons_of_mem x hmem

/-- Every gap emitted from a sorted occupied list starts at the search start
or one interval after a blocked slot. -/
theorem gapsFromSorted_start {blocked : List Nat} {startTime endOfDay : Nat} :
    ∀ (l : List Nat) (gs ge : Nat),
      (gs, ge) ∈ gapsFromSorted blocked startTime endOfDay l →
      (∀ x ∈ l, x ∈ blocked) →
      gs = startTime ∨ (INTERVAL_MINUTES ≤ gs ∧ gs - INTERVAL_MINUTES ∈ blocked) := by
  intro l gs ge hmem hsub
  cases l with
  | nil =>
    left
    simp [gapsFromSorted] at hmem
    exact hmem.1
  | cons first rest =>
    rw [gapsFromSorted] at hmem
    rcases List.mem_append.mp hmem with hmem1 | htail
    · rcases List.mem_append.mp hmem1 with hhead | hmid
      · left
        split at hhead <;> simp_all
      · right
        obtain ⟨e, he, hgs⟩ := midGaps_start (first :: rest) gs ge hmid hsub
        subst hgs
        exact ⟨Nat.le_add_left _ _, by simpa using he⟩
    · right
      have hlast : (first :: rest).getLastD 0 ∈ blocked :=
        hsub _ (getLastD_mem_of_ne_nil (first :: rest) 0 (by simp))
      have he : extendRun blocked blocked.length ((first :: rest).getLastD 0) ∈ blocked :=
        extendRun_mem blocked.length _ hlast
      have hgs : gs = extendRun blocked blocked.length ((first :: rest).getLastD 0)
          + INTERVAL_MINUTES := by
        split at htail <;> simp_all
      subst hgs
      exact ⟨Nat.le_add_left _ _, by simpa using he⟩

/-- C2: on the spec's 5-minute example (occupied 09:00, 09:05, 09:10 of day 0,
start 09:00) the gap finder returns exactly the single coalesced gap from
09:15 (minute 555) to end of day 20:45 (minute 1245); and in general every
reported gap starts either at the search start or exactly one interval after
an occupied slot (each busy run is coalesced to its end before the break is
measured), never in the middle of free space — so runs of contiguous occupied
slots can never fragment into adjacent one-slot gaps. -/
theorem c2_gap_coalescing :
    find_gaps_in_schedule c2State 540 = [(555, 1245)]
      ∧ ∀ (st : SchedState) (startTime gs ge : Nat),
          (gs, ge) ∈ find_gaps_in_schedule st startTime →
          gs = startTime ∨ (INTERVAL_MINUTES ≤ gs ∧ gs - INTERVAL_MINUTES ∈ st.blocked) := by
  refine ⟨by decide, ?_⟩
  intro st startTime gs ge hmem
  rw [find_gaps_in_schedule] at hmem
  refine gapsFromSorted_start _ gs ge hmem ?_
  intro x hx
  rw [mem_sortNat] at hx
  exact (List.mem_filter.mp hx).1

/-- Witness for C2's general clause at the concrete example: the single
reported gap (555, 1245) starts one interval after occupied slot 550. -/
theorem c2_gap_coalescing_witness :
    (555 : Nat) = 540 ∨ (INTERVAL_MINUTES ≤ 555 ∧ 555 - INTERVAL_MINUTES ∈ c2State.blocked) :=
  c2_gap_coalescing.2 c2State 540 555 1245 (by decide)

/-- C3: `find_gap_for_task` returns exactly the start of the first gap
satisfying `gapOk` (long enough, and every one of the `numBlocks` candidate
instants from the gap start avoids the recurring set and `is_time_blocked`);
a nominally long gap failing any of those checks is skipped as a whole — the
result is always a gap's own start, never an interior instant — and when no
gap qualifies the result is `none`. -/
theorem c3_first_fit :
    ∀ (st : SchedState) (gaps : List (Nat × Nat)) (numBlocks : Nat),
      find_gap_for_task st gaps numBlocks
          = Option.map Prod.fst (gaps.find? (gapOk st numBlocks))
        ∧ (find_gap_for_task st gaps numBlocks = none
            ↔ ∀ g ∈ gaps, gapOk st numBlocks g = false) := by
  intro st gaps nb
  have hmain : find_gap_for_task st gaps nb
      = Option.map Prod.fst (gaps.find? (gapOk st nb)) := by
    induction gaps with
    | nil => rfl
    | cons g rest ih =>
      obtain ⟨gs, ge⟩ := g
      rw [find_gap_for_task]
      by_cases h1 : (ge : Int) - (gs : Int) < ((nb * INTERVAL_MINUTES : Nat) : Int)
      · have hok : gapOk st nb (gs, ge) = false := by
          unfold gapOk
          rw [Bool.and_eq_false_iff]
          left
          rw [decide_eq_false_iff_not]
          omega
        rw [if_pos h1, ih, List.find?_cons, hok]
      · by_cases h2 : ((List.range nb).all fun j =>
            !((gs + INTERVAL_MINUTES * j) ∈ st.recurring
              || is_time_blocked st (gs + INTERVAL_MINUTES * j))) = true
        · have hok : gapOk st nb (gs, ge) = true := by
            unfold gapOk
            rw [Bool.and_eq_true]
            exact ⟨decide_eq_true (by omega), h2⟩
          rw [if_neg h1, if_pos h2, List.find?_cons, hok]
          rfl
        · have hok : gapOk st nb (gs, ge) = false := by
            unfold gapOk
            rw [Bool.and_eq_false_iff]
            right
            exact Bool.not_eq_true _ ▸ Bool.of_not_eq_true h2
          rw [if_neg h1, if_neg h2, ih, List.find?_cons, hok]
  refine ⟨hmain, ?_⟩
  rw [hmain]
  rw [Option.map_eq_none', List.find?_eq_none]
  simp

/-- Witness for C3: a gap of 285 minutes is nominally long enough for 6 blocks
but its sixth slot 16:25 (minute 985) collides with the recurring set, so the
gap is rejected as a whole and the result is `none`. -/
theorem c3_first_fit_witness :
    find_gap_for_task c3State [(960, 1245)] 6
        = Option.map Prod.fst ([(960, 1245)].find? (gapOk c3State 6))
      ∧ find_gap_for_task c3State [(960, 1245)] 6 = none :=
  ⟨(c3_first_fit c3State [(960, 1245)] 6).1, by decide⟩

/-- The loop body of `get_bad_tasks`, characterised: a task is selected
exactly when it is non-completed, non-exempt, and either has no due value, or
is non-recurring with a past due date, or is non-recurring, due today, carries
a parsable duration marker, and its current slot is invalid. -/
theorem isBadTask_iff (st : SchedState) (t : Task) :
    isBadTask st t = true
      ↔ is_task_completed t = false ∧ should_skip_reschedule t = false
          ∧ (t.due = none
              ∨ (∃ due, t.due = some due ∧ due.isRecurring = false
                  ∧ dueDatetime due / 1440 < st.today)
              ∨ (∃ due u, t.due = some due ∧ due.isRecurring = false
                  ∧ dueDatetime due / 1440 = st.today
                  ∧ parse_duration_from_description t.description = some u
                  ∧ is_current_slot_valid st t u = false)) := by
  cases hc : is_task_completed t
  · cases hs : should_skip_reschedule t
    · cases hdue : t.due with
      | none => simp [isBadTask, hc, hs, hdue]
      | some due =>
        cases hrec : due.isRecurring
        · rcases Nat.lt_trichotomy (dueDatetime due / 1440) st.today with hlt | heq | hgt
          · simp [isBadTask, hc, hs, hdue, hrec, hlt]
          · have h1 : ¬(dueDatetime due / 1440 < st.today) := by omega
            cases hparse : parse_duration_from_description t.description with
            | none => simp [isBadTask, hc, hs, hdue, hrec, h1, heq, hparse]
            | some u =>
              cases hvalid : is_current_slot_valid st t u <;>
                simp [isBadTask, hc, hs, hdue, hrec, h1, heq, hparse, hvalid]
          · have h1 : ¬(dueDatetime due / 1440 < st.today) := by omega
            have h2 : ¬(dueDatetime due / 1440 = st.today) := by omega
            simp [isBadTask, hc, hs, hdue, hrec, h1, h2]
        · simp [isBadTask, hc, hs, hdue, hrec]
    · simp [isBadTask, hc, hs]
  · simp [isBadTask, hc]

/-- C4: candidate selection picks exactly the non-completed, non-exempt tasks
that have no due value, or are non-recurring with due date strictly before
today, or are non-recurring, due today, carry an explicit duration marker and
fail the current-slot validity check.  In particular recurring tasks never
qualify, and a non-recurring task due today with no marker never qualifies no
matter how far it runs over its estimate. -/
theorem c4_candidate_selection :
    ∀ (st : SchedState) (t : Task),
      t ∈ get_bad_tasks st
        ↔ t ∈ st.tasks ∧ is_task_completed t = false ∧ should_skip_reschedule t = false
            ∧ (t.due = none
                ∨ (∃ due, t.due = some due ∧ due.isRecurring = false
                    ∧ dueDatetime due / 1440 < st.today)
                ∨ (∃ due u, t.due = some due ∧ due.isRecurring = false
                    ∧ dueDatetime due / 1440 = st.today
                    ∧ parse_duration_from_description t.description = some u
                    ∧ is_current_slot_valid st t u = false)) := by
  intro st t
  rw [get_bad_tasks, List.mem_filter, isBadTask_iff]

/-- Witness for C4 at the no-marker task due today at 14:00: the
characterisation instantiates, and the task is indeed not selected. -/
theorem c4_candidate_selection_witness :
    (c4Task ∈ get_bad_tasks c4State
        ↔ c4Task ∈ c4State.tasks ∧ is_task_completed c4Task = false
            ∧ should_skip_reschedule c4Task = false
            ∧ (c4Task.due = none
                ∨ (∃ due, c4Task.due = some due ∧ due.isRecurring = false
                    ∧ dueDatetime due / 1440 < c4State.today)
                ∨ (∃ due u, c4Task.due = some due ∧ due.isRecurring = false
                    ∧ dueDatetime due / 1440 = c4State.today
                    ∧ parse_duration_from_description c4Task.description = some u
                    ∧ is_current_slot_valid c4State c4Task u = false)))
      ∧ c4Task ∉ get_bad_tasks c4State :=
  ⟨c4_candidate_selection c4State c4Task, by decide⟩

set_option maxRecDepth 1000000 in
/-- C5: the claim that slot ranges of candidates placed in one pass never
overlap fails on the code.  Running the pass of `schedule_non_recurring_tasks`
on `c5State` at `now = 15:00`: candidate 1 is placed at 16:00 over slots
{960, 965}; candidate 2's "unblock old slot" step then removes its previous
due instant 960 from the blocked set — a slot that now belongs to candidate
1's placement — so candidate 3 is later placed at 960, which lies both in the
range blocked for candidate 1 and in the range assigned to candidate 3. -/
theorem c5_later_candidate_overlaps_earlier :
    (schedule_non_recurring_tasks c5State 900).toOption.map Prod.snd
        = some [(1, 960, 2), (2, 2340, 58), (3, 960, 1)]
      ∧ 960 ∈ slotRange 960 2 ∧ 960 ∈ slotRange 960 1 := by decide

/-- C10: a scheduling pass applies auto-priorities before building
availability — the run trace is the fetch, then the priority writes, then the
first `buildAvailability` event, and no priority write occurs after it — and a
priority write is only issued for a task whose current priority is 1, with
value 2 or 4; `estimate_priority` itself never returns anything but `none`, 2
or 4, and returns `none` whenever no credential is configured. -/
theorem c10_auto_priorities :
    ∀ (st : SchedState) (refetched : List Task) (now : Nat),
      (∀ u ∈ (apply_auto_priorities st).2,
          (u.2 = 2 ∨ u.2 = 4) ∧ ∃ t ∈ st.tasks, u.1 = t.id ∧ t.priority = 1)
        ∧ (∀ reply, estimate_priority none reply = none)
        ∧ (∀ (key reply : Option String) (v : Nat),
            estimate_priority key reply = some v → v = 2 ∨ v = 4)
        ∧ run_trace st refetched now
            = RunEvent.fetch
                :: ((apply_auto_priorities st).2.map fun u => RunEvent.priorityUpdate u.1 u.2)
              ++ RunEvent.buildAvailability :: run_trace_post st refetched now
        ∧ (∀ id p, RunEvent.priorityUpdate id p ∉ run_trace_post st refetched now) := by
  intro st refetched now
  have hpr : ∀ (key reply : Option String) (v : Nat),
      estimate_priority key reply = some v → v = 2 ∨ v = 4 := by
    intro key reply v h
    cases key with
    | none => exact absurd h (by simp [estimate_priority])
    | some k =>
      cases reply with
      | none => exact absurd h (by simp [estimate_priority])
      | some content =>
        simp only [estimate_priority] at h
        cases hnum : firstNumber content.data with
        | none => simp [hnum] at h
        | some w =>
          simp only [hnum] at h
          by_cases hw : (decide (w = 2) || decide (w = 4)) = true
          · rw [if_pos hw] at h
            cases h
            simpa using hw
          · rw [if_neg hw] at h
            cases h
  refine ⟨?_, fun reply => rfl, hpr, ?_, ?_⟩
  · intro u hu
    rw [apply_auto_priorities] at hu
    simp only [List.mem_filterMap] at hu
    obtain ⟨t, ht, hmap⟩ := hu
    rw [Option.map_eq_some'] at hmap
    obtain ⟨p, hp, hup⟩ := hmap
    unfold priorityUpdateFor at hp
    by_cases hpri : t.priority = 1
    · rw [if_pos hpri] at hp
      refine ⟨?_, t, ht, ?_, hpri⟩
      · have := hpr st.apiKey (st.prioReply t.content t.description) p hp
        rw [← hup]
        exact this
      · rw [← hup]
    · rw [if_neg hpri] at hp
      exact absurd hp (by simp)
  · simp only [run_trace, run_trace_post, List.cons_append, List.append_assoc]
  · intro id p h
    simp only [run_trace_post] at h
    rcases List.mem_append.mp h with h1 | h2
    · rcases List.mem_append.mp h1 with ha | hb
      · obtain ⟨a, _, ha2⟩ := List.mem_map.mp ha
        exact absurd ha2 (by simp)
      · revert hb
        split <;> simp
    · rcases hres : schedule_non_recurring_tasks
        (if (reschedule_overdue_recurring
              (build_blocked_times (apply_auto_priorities st).1)).isEmpty
         then build_blocked_times (apply_auto_priorities st).1
         else build_blocked_times
           { build_blocked_times (apply_auto_priorities st).1 with tasks := refetched }) now
        with e | pr
      · rw [hres] at h2
        simp at h2
      · obtain ⟨stx, placements⟩ := pr
        rw [hres] at h2
        simp at h2

/-- Witness for C10: on `c10State` (one priority-1 task, key configured,
reply `"4"`) the single write targets task 9, priority 1, with value 4. -/
theorem c10_auto_priorities_witness :
    (((9 : Nat), (4 : Nat)).2 = 2 ∨ ((9 : Nat), (4 : Nat)).2 = 4)
      ∧ ∃ t ∈ c10State.tasks, ((9 : Nat), (4 : Nat)).1 = t.id ∧ t.priority = 1 :=
  (c10_auto_priorities c10State [] 0).1 (9, 4) (by decide)

/-! ### Marker-replacement idempotence (C9) -/

/-- Unfolding: scanning starts with a non-digit. -/
theorem firstMatch_not_digit {c : Char} (h : c.isDigit = false) (rest : List Char) :
    firstMatch (c :: rest)
      = (firstMatch rest).map (fun pr => (c :: pr.1, pr.2.1, pr.2.2)) := by
  rw [firstMatch.eq_def]
  simp [h]

/-- Unfolding: a digit at the very end matches nothing. -/
theorem firstMatch_digit_nil {c : Char} (h : c.isDigit = true) :
    firstMatch [c] = none := by
  rw [firstMatch.eq_def]
  simp [h]

/-- Unfolding: digit, then `m`, then a boundary — a match at position zero. -/
theorem firstMatch_digit_m_bnd {c : Char} (hc : c.isDigit = true) {rtail : List Char}
    (hb : isBoundary rtail = true) :
    firstMatch (c :: 'm' :: rtail) = some ([], [c], rtail) := by
  rw [firstMatch.eq_def]
  simp [hc, hb]

/-- Unfolding: digit, then `m`, but no boundary — scan the rest. -/
theorem firstMatch_digit_m_nobnd {c : Char} (hc : c.isDigit = true) {rtail : List Char}
    (hb : isBoundary rtail = false) :
    firstMatch (c :: 'm' :: rtail)
      = (firstMatch ('m' :: rtail)).map (fun pr => (c :: pr.1, pr.2.1, pr.2.2)) := by
  rw [firstMatch.eq_def]
  simp [hc, hb]

/-- Unfolding: two digits — extend a position-zero match of the rest, else
shift the rest's match. -/
theorem firstMatch_digit_digit {c r0 : Char} (hc : c.isDigit = true)
    (h0 : r0.isDigit = true) (rtail : List Char) :
    firstMatch (c :: r0 :: rtail)
      = match firstMatch (r0 :: rtail) with
        | some ([], r, t) => some ([], c :: r, t)
        | fr => fr.map (fun pr => (c :: pr.1, pr.2.1, pr.2.2)) := by
  have hm : ¬(r0 = 'm') := by
    intro he
    rw [he] at h0
    simp at h0
  rw [firstMatch.eq_def]
  simp [hc, hm, h0]

/-- Unfolding: digit then a non-digit, non-`m` character — scan the rest. -/
theorem firstMatch_digit_other {c r0 : Char} (hc : c.isDigit = true) (hm : ¬(r0 = 'm'))
    (h0 : r0.isDigit = false) (rtail : List Char) :
    firstMatch (c :: r0 :: rtail)
      = (firstMatch (r0 :: rtail)).map (fun pr => (c :: pr.1, pr.2.1, pr.2.2)) := by
  rw [firstMatch.eq_def]
  simp [hc, hm, h0]

/-- The decimal printer emits at least one character, all digits. -/
theorem natCharsAux_facts :
    ∀ (fuel n : Nat), n < fuel →
      natCharsAux fuel n ≠ [] ∧ ∀ c ∈ natCharsAux fuel n, c.isDigit = true
  | 0, _, h => absurd h (by omega)
  | fuel + 1, n, _ => by
    rw [natCharsAux]
    by_cases h10 : n < 10
    · rw [if_pos h10]
      refine ⟨by simp, ?_⟩
      intro c hc
      rw [List.mem_singleton] at hc
      subst hc
      interval_cases n <;> decide
    · rw [if_neg h10]
      have hrec := natCharsAux_facts fuel (n / 10) (by omega)
      refine ⟨by simp, ?_⟩
      intro c hc
      rcases List.mem_append.mp hc with h1 | h2
      · exact hrec.2 c h1
      · rw [List.mem_singleton] at h2
        subst h2
        have hmod : n % 10 < 10 := Nat.mod_lt _ (by omega)
        set k := n % 10 with hk
        interval_cases k <;> decide

/-- `f"{n}"` is never empty. -/
theorem natChars_ne_nil (n : Nat) : natChars n ≠ [] :=
  (natCharsAux_facts (n + 1) n (by omega)).1

/-- `f"{n}"` consists of digits. -/
theorem natChars_digits (n : Nat) : ∀ c ∈ natChars n, c.isDigit = true :=
  (natCharsAux_facts (n + 1) n (by omega)).2

/-- Digits are word characters. -/
theorem wordChar_of_isDigit {c : Char} (h : c.isDigit = true) : wordChar c = true := by
  simp [wordChar, Char.isAlphanum, h]

/-- A digit right after the `m` violates the word boundary. -/
theorem isBoundary_cons_digit {l : List Char} {c : Char} (h : c.isDigit = true) :
    isBoundary (c :: l) = false := by
  simp [isBoundary, wordChar_of_isDigit h]

/-- A match, decomposed: the input splits as front, digit run, `m`, tail, the
run is a nonempty digit run and the tail starts at a word boundary. -/
theorem firstMatch_decomp :
    ∀ (l front run tail : List Char), firstMatch l = some (front, run, tail) →
      l = front ++ run ++ 'm' :: tail ∧ run ≠ []
        ∧ (∀ c ∈ run, c.isDigit = true) ∧ isBoundary tail = true := by
  intro l
  induction l with
  | nil => intro f r t h; cases h
  | cons c rest ih =>
    intro f r t h
    cases hcd : c.isDigit with
    | false =>
      rw [firstMatch_not_digit hcd] at h
      rw [Option.map_eq_some'] at h
      obtain ⟨⟨f1, r1, t1⟩, hfm1, heq⟩ := h
      simp only [Prod.mk.injEq] at heq
      obtain ⟨rfl, rfl, rfl⟩ := heq
      obtain ⟨hl, hne, hdig, hbnd⟩ := ih f1 r1 t1 hfm1
      exact ⟨by rw [hl]; simp, hne, hdig, hbnd⟩
    | true =>
      cases rest with
      | nil => rw [firstMatch_digit_nil hcd] at h; cases h
      | cons r0 rtail =>
        by_cases hm : r0 = 'm'
        · subst hm
          cases hbnd : isBoundary rtail with
          | true =>
            rw [firstMatch_digit_m_bnd hcd hbnd] at h
            simp only [Option.some.injEq, Prod.mk.injEq] at h
            obtain ⟨rfl, rfl, rfl⟩ := h
            refine ⟨by simp, by simp, ?_, hbnd⟩
            intro x hx
            rw [List.mem_singleton] at hx
            subst hx
            exact hcd
          | false =>
            rw [firstMatch_digit_m_nobnd hcd hbnd] at h
            rw [Option.map_eq_some'] at h
            obtain ⟨⟨f1, r1, t1⟩, hfm1, heq⟩ := h
            simp only [Prod.mk.injEq] at heq
            obtain ⟨rfl, rfl, rfl⟩ := heq
            obtain ⟨hl, hne, hdig, hbnd1⟩ := ih f1 r1 t1 hfm1
            exact ⟨by rw [hl]; simp, hne, hdig, hbnd1⟩
        · cases h0 : r0.isDigit with
          | true =>
            rw [firstMatch_digit_digit hcd h0] at h
            cases hfm : firstMatch (r0 :: rtail) with
            | none => rw [hfm] at h; cases h
            | some pr =>
              obtain ⟨f1, r1, t1⟩ := pr
              obtain ⟨hl, hne, hdig, hbnd1⟩ := ih f1 r1 t1 hfm
              cases f1 with
              | nil =>
                rw [hfm] at h
                simp only [Option.some.injEq, Prod.mk.injEq] at h
                obtain ⟨rfl, rfl, rfl⟩ := h
                refine ⟨by rw [hl]; simp, by simp, ?_, hbnd1⟩
                intro x hx
                rcases List.mem_cons.mp hx with hx1 | hx2
                · subst hx1; exact hcd
                · exact hdig x hx2
              | cons f0 f2 =>
                rw [hfm] at h
                simp only [Option.map_some', Option.some.injEq, Prod.mk.injEq] at h
                obtain ⟨rfl, rfl, rfl⟩ := h
                exact ⟨by rw [hl]; simp, hne, hdig, hbnd1⟩
          | false =>
            rw [firstMatch_digit_other hcd hm h0] at h
            rw [Option.map_eq_some'] at h
            obtain ⟨⟨f1, r1, t1⟩, hfm1, heq⟩ := h
            simp only [Prod.mk.injEq] at heq
            obtain ⟨rfl, rfl, rfl⟩ := heq
            obtain ⟨hl, hne, hdig, hbnd1⟩ := ih f1 r1 t1 hfm1
            exact ⟨by rw [hl]; simp, hne, hdig, hbnd1⟩

/-- A nonempty digit run followed by `m` and a boundary matches at position
zero with exactly that run. -/
theorem firstMatch_of_run {t : List Char} (hb : isBoundary t = true) :
    ∀ (r : List Char), r ≠ [] → (∀ c ∈ r, c.isDigit = true) →
      firstMatch (r ++ 'm' :: t) = some ([], r, t)
  | [], h, _ => absurd rfl h
  | [a], _, hd => by
    have hda : a.isDigit = true := hd a (by simp)
    simpa using firstMatch_digit_m_bnd hda hb
  | a :: b :: r2, _, hd => by
    have hda : a.isDigit = true := hd a (by simp)
    have hdb : b.isDigit = true := hd b (by simp)
    have ih := firstMatch_of_run hb (b :: r2) (by simp)
      (fun c hc => hd c (List.mem_cons_of_mem a hc))
    simp only [List.cons_append] at ih ⊢
    rw [firstMatch_digit_digit hda hdb, ih]

/-- Replacing the matched run of a match with any nonempty digit run yields a
text whose first match is exactly the replacement, in the same position with
the same front and tail. -/
theorem firstMatch_resub :
    ∀ (l front run tail : List Char), firstMatch l = some (front, run, tail) →
      ∀ (run2 : List Char), run2 ≠ [] → (∀ c ∈ run2, c.isDigit = true) →
      firstMatch (front ++ run2 ++ 'm' :: tail) = some (front, run2, tail) := by
  intro l
  induction l with
  | nil => intro f r t h; cases h
  | cons c rest ih =>
    intro f r t h run2 hne2 hd2
    cases hcd : c.isDigit with
    | false =>
      rw [firstMatch_not_digit hcd] at h
      rw [Option.map_eq_some'] at h
      obtain ⟨⟨f1, r1, t1⟩, hfm1, heq⟩ := h
      simp only [Prod.mk.injEq] at heq
      obtain ⟨rfl, rfl, rfl⟩ := heq
      have ihr := ih f1 r1 t1 hfm1 run2 hne2 hd2
      simp only [List.cons_append]
      rw [firstMatch_not_digit hcd, ihr]
      rfl
    | true =>
      cases rest with
      | nil => rw [firstMatch_digit_nil hcd] at h; cases h
      | cons r0 rtail =>
        by_cases hm : r0 = 'm'
        · subst hm
          cases hbnd : isBoundary rtail with
          | true =>
            rw [firstMatch_digit_m_bnd hcd hbnd] at h
            simp only [Option.some.injEq, Prod.mk.injEq] at h
            obtain ⟨rfl, rfl, rfl⟩ := h
            simpa using firstMatch_of_run hbnd run2 hne2 hd2
          | false =>
            rw [firstMatch_digit_m_nobnd hcd hbnd] at h
            rw [Option.map_eq_some'] at h
            obtain ⟨⟨f1, r1, t1⟩, hfm1, heq⟩ := h
            simp only [Prod.mk.injEq] at heq
            obtain ⟨rfl, rfl, rfl⟩ := heq
            obtain ⟨hl, hne1, hdig1, _⟩ := firstMatch_decomp _ f1 r1 t1 hfm1
            have ihr := ih f1 r1 t1 hfm1 run2 hne2 hd2
            cases f1 with
            | nil =>
              exfalso
              cases r1 with
              | nil => exact hne1 rfl
              | cons x xs =>
                simp only [List.nil_append, List.cons_append] at hl
                injection hl with hx1 _
                have hxd : x.isDigit = true := hdig1 x (by simp)
                rw [← hx1] at hxd
                simp at hxd
            | cons f10 f2 =>
              simp only [List.cons_append] at hl
              injection hl with hf10 hrtail
              subst hf10
              have hbndX : isBoundary (f2 ++ run2 ++ 'm' :: t1) = false := by
                cases f2 with
                | nil =>
                  cases run2 with
                  | nil => exact absurd rfl hne2
                  | cons y ys =>
                    simp only [List.nil_append, List.cons_append]
                    exact isBoundary_cons_digit (hd2 y (by simp))
                | cons z zs =>
                  rw [hrtail] at hbnd
                  simp only [List.cons_append, isBoundary] at hbnd ⊢
                  exact hbnd
              simp only [List.cons_append]
              rw [firstMatch_digit_m_nobnd hcd hbndX]
              simp only [List.cons_append] at ihr
              rw [ihr]
              rfl
        · cases h0 : r0.isDigit with
          | true =>
            rw [firstMatch_digit_digit hcd h0] at h
            cases hfm : firstMatch (r0 :: rtail) with
            | none => rw [hfm] at h; cases h
            | some pr =>
              obtain ⟨f1, r1, t1⟩ := pr
              obtain ⟨hl, hne1, hdig1, hbnd1⟩ := firstMatch_decomp _ f1 r1 t1 hfm
              have ihr := ih f1 r1 t1 hfm run2 hne2 hd2
              cases f1 with
              | nil =>
                rw [hfm] at h
                simp only [Option.some.injEq, Prod.mk.injEq] at h
                obtain ⟨rfl, rfl, rfl⟩ := h
                simpa using firstMatch_of_run hbnd1 run2 hne2 hd2
              | cons f10 f2 =>
                rw [hfm] at h
                simp only [Option.map_some', Option.some.injEq, Prod.mk.injEq] at h
                obtain ⟨rfl, rfl, rfl⟩ := h
                simp only [List.cons_append] at hl
                injection hl with hf10 hrtail
                subst hf10
                simp only [List.cons_append]
                rw [firstMatch_digit_digit hcd h0]
                simp only [List.cons_append] at ihr
                rw [ihr]
                rfl
          | false =>
            rw [firstMatch_digit_other hcd hm h0] at h
            rw [Option.map_eq_some'] at h
            obtain ⟨⟨f1, r1, t1⟩, hfm1, heq⟩ := h
            simp only [Prod.mk.injEq] at heq
            obtain ⟨rfl, rfl, rfl⟩ := heq
            obtain ⟨hl, hne1, hdig1, _⟩ := firstMatch_decomp _ f1 r1 t1 hfm1
            have ihr := ih f1 r1 t1 hfm1 run2 hne2 hd2
            cases f1 with
            | nil =>
              exfalso
              cases r1 with
              | nil => exact hne1 rfl
              | cons x xs =>
                simp only [List.nil_append, List.cons_append] at hl
                injection hl with hx1 _
                have hxd : x.isDigit = true := hdig1 x (by simp)
                rw [← hx1] at hxd
                rw [h0] at hxd
                cases hxd
            | cons f10 f2 =>
              simp only [List.cons_append] at hl
              injection hl with hf10 hrtail
              subst hf10
              simp only [List.cons_append]
              rw [firstMatch_digit_other hcd hm h0]
              simp only [List.cons_append] at ihr
              rw [ihr]
              rfl

/-- Appending a space and more text to a matchless text shifts the appended
text's first match by the whole original prefix. -/
theorem firstMatch_append_none_aux :
    ∀ (n : Nat) (d l2 : List Char), d.length ≤ n → firstMatch d = none →
      firstMatch (d ++ ' ' :: l2)
        = (firstMatch l2).map (fun pr => (d ++ ' ' :: pr.1, pr.2.1, pr.2.2))
  | _, [], l2, _, _ => by
    simp only [List.nil_append]
    rw [firstMatch_not_digit (by decide)]
  | 0, c :: rest, _, hlen, _ => by simp at hlen
  | n + 1, c :: rest, l2, hlen, hnone => by
    cases hcd : c.isDigit with
    | false =>
      rw [firstMatch_not_digit hcd] at hnone
      have hrest : firstMatch rest = none := Option.map_eq_none'.mp hnone
      have ihr := firstMatch_append_none_aux n rest l2 (by simp at hlen; omega) hrest
      simp only [List.cons_append]
      rw [firstMatch_not_digit hcd, ihr]
      cases firstMatch l2 with
      | none => rfl
      | some pr => rfl
    | true =>
      cases rest with
      | nil =>
        simp only [List.cons_append, List.nil_append]
        rw [firstMatch_digit_other hcd (by decide) (by decide)]
        rw [firstMatch_not_digit (by decide)]
        cases firstMatch l2 with
        | none => rfl
        | some pr => rfl
      | cons r0 rtail =>
        by_cases hm : r0 = 'm'
        · subst hm
          cases hbnd : isBoundary rtail with
          | true =>
            rw [firstMatch_digit_m_bnd hcd hbnd] at hnone
            cases hnone
          | false =>
            rw [firstMatch_digit_m_nobnd hcd hbnd] at hnone
            have hrest : firstMatch ('m' :: rtail) = none := Option.map_eq_none'.mp hnone
            rw [firstMatch_not_digit (by decide)] at hrest
            have hrt : firstMatch rtail = none := Option.map_eq_none'.mp hrest
            have ihr := firstMatch_append_none_aux n rtail l2 (by simp at hlen; omega) hrt
            cases rtail with
            | nil => simp [isBoundary] at hbnd
            | cons w ws =>
              have hbndX : isBoundary ((w :: ws) ++ ' ' :: l2) = false := by
                simp only [List.cons_append, isBoundary] at hbnd ⊢
                exact hbnd
              simp only [List.cons_append] at hbndX ⊢
              rw [firstMatch_digit_m_nobnd hcd hbndX]
              rw [firstMatch_not_digit (by decide)]
              simp only [List.cons_append] at ihr
              rw [ihr]
              cases firstMatch l2 with
              | none => rfl
              | some pr => rfl
        · cases h0 : r0.isDigit with
          | true =>
            rw [firstMatch_digit_digit hcd h0] at hnone
            cases hfm : firstMatch (r0 :: rtail) with
            | some pr =>
              obtain ⟨f1, r1, t1⟩ := pr
              rw [hfm] at hnone
              cases f1 with
              | nil => simp at hnone
              | cons f10 f2 => simp at hnone
            | none =>
              have ihr := firstMatch_append_none_aux n (r0 :: rtail) l2
                (by simp at hlen ⊢; omega) hfm
              simp only [List.cons_append]
              rw [firstMatch_digit_digit hcd h0]
              simp only [List.cons_append] at ihr
              rw [ihr]
              cases firstMatch l2 with
              | none => rfl
              | some pr => rfl
          | false =>
            rw [firstMatch_digit_other hcd hm h0] at hnone
            have hrest : firstMatch (r0 :: rtail) = none := Option.map_eq_none'.mp hnone
            have ihr := firstMatch_append_none_aux n (r0 :: rtail) l2
              (by simp at hlen ⊢; omega) hrest
            simp only [List.cons_append]
            rw [firstMatch_digit_other hcd hm h0]
            simp only [List.cons_append] at ihr
            rw [ihr]
            cases firstMatch l2 with
            | none => rfl
            | some pr => rfl

/-- Wrapper of the previous lemma without the fuel bound. -/
theorem firstMatch_append_none (d l2 : List Char) (h : firstMatch d = none) :
    firstMatch (d ++ ' ' :: l2)
      = (firstMatch l2).map (fun pr => (d ++ ' ' :: pr.1, pr.2.1, pr.2.2)) :=
  firstMatch_append_none_aux d.length d l2 le_rfl h

/-- Whitespace characters are not digits. -/
theorem isSpaceChar_not_digit {c : Char} (h : isSpaceChar c = true) : c.isDigit = false := by
  simp only [isSpaceChar, Bool.or_eq_true, decide_eq_true_eq] at h
  rcases h with ((((h | h) | h) | h) | h) | h <;> (subst h; decide)

/-- Digits are not whitespace. -/
theorem isDigit_not_space {c : Char} (h : c.isDigit = true) : isSpaceChar c = false := by
  cases hsp : isSpaceChar c
  · rfl
  · rw [isSpaceChar_not_digit hsp] at h
    cases h

/-- Left-stripping a matchless text leaves it matchless. -/
theorem firstMatch_dropWhile_space {d : List Char} (h : firstMatch d = none) :
    firstMatch (d.dropWhile isSpaceChar) = none := by
  induction d with
  | nil => simpa using h
  | cons c rest ih =>
    rw [List.dropWhile_cons]
    by_cases hsp : isSpaceChar c = true
    · rw [if_pos hsp]
      apply ih
      rw [firstMatch_not_digit (isSpaceChar_not_digit hsp)] at h
      exact Option.map_eq_none'.mp h
    · rw [if_neg hsp]
      exact h

/-- `dropWhile` over an append when the first part is consumed entirely. -/
theorem dropWhile_append_all {p : Char → Bool} :
    ∀ (a b : List Char), a.dropWhile p = [] → (a ++ b).dropWhile p = b.dropWhile p
  | [], _, _ => by simp
  | c :: rest, b, h => by
    rw [List.dropWhile_cons] at h
    by_cases hp : p c = true
    · rw [if_pos hp] at h
      simp only [List.cons_append]
      rw [List.dropWhile_cons, if_pos hp]
      exact dropWhile_append_all rest b h
    · rw [if_neg hp] at h
      cases h

/-- `dropWhile` over an append when the first part survives. -/
theorem dropWhile_append_surv {p : Char → Bool} :
    ∀ (a b : List Char) (x : Char) (xs : List Char), a.dropWhile p = x :: xs →
      (a ++ b).dropWhile p = x :: (xs ++ b)
  | [], _, _, _, h => by simp at h
  | c :: rest, b, x, xs, h => by
    rw [List.dropWhile_cons] at h
    by_cases hp : p c = true
    · rw [if_pos hp] at h
      simp only [List.cons_append]
      rw [List.dropWhile_cons, if_pos hp]
      exact dropWhile_append_surv rest b x xs h
    · rw [if_neg hp] at h
      injection h with h1 h2
      subst h1
      subst h2
      simp only [List.cons_append]
      rw [List.dropWhile_cons, if_neg hp]

/-- Right-stripping a text ending in `m` is a no-op. -/
theorem rstrip_append_m (a : List Char) :
    ((a ++ ['m']).reverse.dropWhile isSpaceChar).reverse = a ++ ['m'] := by
  rw [List.reverse_append, List.reverse_singleton, List.singleton_append]
  rw [List.dropWhile_cons, if_neg (by decide)]
  rw [List.reverse_cons, List.reverse_reverse]

/-- Left-stripping `f"{n}m"` is a no-op. -/
theorem dropWhile_repMarker (n : Nat) :
    (repMarker n).dropWhile isSpaceChar = repMarker n := by
  cases hnc : natChars n with
  | nil => exact absurd hnc (natChars_ne_nil n)
  | cons x xs =>
    have hx : x.isDigit = true := natChars_digits n x (by rw [hnc]; simp)
    rw [repMarker, hnc]
    simp only [List.cons_append]
    rw [List.dropWhile_cons, if_neg (by simp [isDigit_not_space hx])]

/-- The replacement text is itself a marker, matched whole at position zero. -/
theorem firstMatch_repMarker (n : Nat) :
    firstMatch (repMarker n) = some ([], natChars n, []) :=
  @firstMatch_of_run [] rfl (natChars n) (natChars_ne_nil n) (natChars_digits n)

/-- A string whose first match carries exactly the replacement run `f"{n}"` is
a fixed point of `add_duration_to_description`. -/
theorem add_fixed_point (s : String) (n : Nat) (f t : List Char)
    (hfm : firstMatch s.data = some (f, natChars n, t)) :
    add_duration_to_description s n = s := by
  obtain ⟨l⟩ := s
  change firstMatch l = some (f, natChars n, t) at hfm
  obtain ⟨hl, -, -, -⟩ := firstMatch_decomp l f (natChars n) t hfm
  have hlne : l ≠ [] := by
    rw [hl]
    simp
  have hsne : String.mk l ≠ "" := by
    intro hc
    exact hlne (congrArg String.data hc)
  rw [add_duration_to_description, if_neg hsne,
    if_pos (show hasMarker (String.mk l).data = true by
      change hasMarker l = true
      rw [hasMarker, hfm]
      rfl)]
  change String.mk (subFirst (repMarker n) l) = String.mk l
  congr 1
  rw [subFirst, hfm, hl]
  simp [repMarker]

/-- C9: `add_duration_to_description` is idempotent — applying it twice with
the same duration yields the same string as applying it once, whether the
description is empty (marker created), already carries a marker (first
occurrence replaced in place), or has none (marker appended after a strip). -/
theorem c9_add_duration_idempotent :
    ∀ (description : String) (duration : Nat),
      add_duration_to_description (add_duration_to_description description duration) duration
        = add_duration_to_description description duration := by
  intro d n
  by_cases hd : d = ""
  · subst hd
    have h1 : add_duration_to_description "" n = String.mk (repMarker n) := by
      rw [add_duration_to_description, if_pos rfl]
    rw [h1]
    exact add_fixed_point (String.mk (repMarker n)) n [] []
      (by change firstMatch (repMarker n) = _
          rw [firstMatch_repMarker])
  · by_cases hmark : hasMarker d.data = true
    · have h1 : add_duration_to_description d n
          = String.mk (subFirst (repMarker n) d.data) := by
        rw [add_duration_to_description, if_neg hd, if_pos hmark]
      rw [h1]
      rw [hasMarker] at hmark
      obtain ⟨⟨f, r, t⟩, hfm⟩ := Option.isSome_iff_exists.mp hmark
      refine add_fixed_point _ n f t ?_
      change firstMatch (subFirst (repMarker n) d.data) = some (f, natChars n, t)
      rw [subFirst, hfm]
      change firstMatch (f ++ repMarker n ++ t) = some (f, natChars n, t)
      have hassoc : f ++ repMarker n ++ t = f ++ natChars n ++ 'm' :: t := by
        simp [repMarker]
      rw [hassoc]
      exact firstMatch_resub d.data f r t hfm (natChars n)
        (natChars_ne_nil n) (natChars_digits n)
    · have h1 : add_duration_to_description d n
          = String.mk (pyStrip (d.data ++ ' ' :: repMarker n)) := by
        rw [add_duration_to_description, if_neg hd, if_neg hmark]
      rw [h1]
      have hnone : firstMatch d.data = none := by
        rw [hasMarker] at hmark
        exact Option.not_isSome_iff_eq_none.mp (by simpa using hmark)
      cases hd1 : d.data.dropWhile isSpaceChar with
      | nil =>
        have hstrip : pyStrip (d.data ++ ' ' :: repMarker n) = repMarker n := by
          rw [pyStrip, dropWhile_append_all d.data (' ' :: repMarker n) hd1]
          rw [List.dropWhile_cons, if_pos (by decide), dropWhile_repMarker]
          exact rstrip_append_m (natChars n)
        rw [hstrip]
        exact add_fixed_point (String.mk (repMarker n)) n [] []
          (by change firstMatch (repMarker n) = _
              rw [firstMatch_repMarker])
      | cons x xs =>
        have hxnone : firstMatch (x :: xs) = none := by
          have := firstMatch_dropWhile_space hnone
          rwa [hd1] at this
        have hstrip : pyStrip (d.data ++ ' ' :: repMarker n)
            = (x :: xs) ++ ' ' :: repMarker n := by
          rw [pyStrip, dropWhile_append_surv d.data (' ' :: repMarker n) x xs hd1]
          have hshape : x :: (xs ++ ' ' :: repMarker n)
              = (x :: (xs ++ ' ' :: natChars n)) ++ ['m'] := by
            simp [repMarker]
          rw [hshape, rstrip_append_m]
          simp [repMarker]
        rw [hstrip]
        refine add_fixed_point _ n ((x :: xs) ++ [' ']) [] ?_
        change firstMatch ((x :: xs) ++ ' ' :: repMarker n)
          = some ((x :: xs) ++ [' '], natChars n, [])
        rw [firstMatch_append_none (x :: xs) (repMarker n) hxnone, firstMatch_repMarker]
        rfl

end TodoistScheduler
